import Mathlib

/-!
# dedicated-admin-operator: the namespace controller

A shallow embedding of `pkg/controller/dedicatedadmin/namespace_controller.go`
and the properties of its reconciliation pass.

The controller talks to three collaborators that live outside the repository:
the Go standard library (`strings.Split`, `regexp.MatchString`), the
controller-runtime client (`r.client.Get`, `r.client.Create`) and the logger.
The client and the regular-expression library are parameters of the embedding, so
every general theorem holds for whatever they return.  Closed statements are
evaluated with `goRegexp`, a model of Go's `regexp` on the syntax fragment
literals, `.`, `*`, `+`, `?`, `|`, groups and escaped punctuation.
-/

set_option autoImplicit false

namespace DedicatedAdmin

/-! ## Go standard library: `strings.Split` -/

/-- Pieces of `s` between the occurrences of the one-character separator `sep`:
`strings.Split(s, sep)` of Go for a separator of length one.  A string without a
separator, the empty string included, gives one piece: the string itself. -/
def splitChars (sep : Char) : List Char → List (List Char)
  | [] => [[]]
  | c :: cs =>
    if c = sep then [] :: splitChars sep cs
    else
      match splitChars sep cs with
      | [] => [[c]]
      | p :: ps => (c :: p) :: ps

/-- Go `strings.Split(s, sep)` for a one-character separator. -/
def strings.Split (s : String) (sep : Char) : List String :=
  (splitChars sep s.data).map String.mk

/-! ## Go standard library: `regexp` -/

/-- What the controller uses of Go's `regexp` package: `regexp.Compile` and
`(*Regexp).MatchString`, which reports whether the string contains any match of
the compiled expression. -/
structure Regexp where
  /-- Compiled expressions, `*regexp.Regexp`. -/
  Prog : Type
  /-- Go `regexp.Compile(expr)`: the compiled expression or a syntax error. -/
  Compile : String → Except String Prog
  /-- Go `re.MatchString(s)`: does `s` contain any match of `re`. -/
  MatchString : Prog → String → Bool

/-- Go `regexp.MatchString(pattern, s)`: compiles the pattern, returns
`(false, err)` when that fails and `(re.MatchString(s), nil)` otherwise. -/
def regexp.MatchString (R : Regexp) (pattern : String) (s : String) : Bool × Option String :=
  match R.Compile pattern with
  | .error err => (false, some err)
  | .ok re => (R.MatchString re s, none)

/-! ### A model of Go's `regexp` on a fragment of its syntax -/

/-- Regular expressions of the fragment, named after the operators of
`regexp/syntax`. -/
inductive Regex where
  /-- Matches no string (`OpNoMatch`). -/
  | noMatch
  /-- Matches the empty string (`OpEmptyMatch`). -/
  | emptyMatch
  /-- Matches the one character `c` (`OpLiteral`). -/
  | literal (c : Char)
  /-- Matches any character but a newline (`OpAnyCharNotNL`, the meaning of `.`). -/
  | anyCharNotNL
  /-- Concatenation (`OpConcat`). -/
  | concat (r s : Regex)
  /-- Alternation (`OpAlternate`). -/
  | alternate (r s : Regex)
  /-- Zero or more repetitions (`OpStar`). -/
  | star (r : Regex)
  deriving DecidableEq

namespace Regex

/-- One or more repetitions (`OpPlus`). -/
def plus (r : Regex) : Regex := concat r (star r)

/-- Zero or one occurrence (`OpQuest`). -/
def quest (r : Regex) : Regex := alternate r emptyMatch

/-- The strings an expression matches as a whole. -/
def Matches : Regex → List Char → Prop
  | noMatch, _ => False
  | emptyMatch, s => s = []
  | literal c, s => s = [c]
  | anyCharNotNL, s => ∃ c, c ≠ '\n' ∧ s = [c]
  | concat r₁ r₂, s => ∃ t u, s = t ++ u ∧ Matches r₁ t ∧ Matches r₂ u
  | alternate r₁ r₂, s => Matches r₁ s ∨ Matches r₂ s
  | star r, s => ∃ ts : List (List Char), s = ts.flatten ∧ ∀ t ∈ ts, t ≠ [] ∧ Matches r t

/-- Does the expression match the empty string. -/
def nullable : Regex → Bool
  | noMatch => false
  | emptyMatch => true
  | literal _ => false
  | anyCharNotNL => false
  | concat r s => nullable r && nullable s
  | alternate r s => nullable r || nullable s
  | star _ => true

/-- Brzozowski derivative: what is left to match after reading `a`. -/
def deriv : Regex → Char → Regex
  | noMatch, _ => noMatch
  | emptyMatch, _ => noMatch
  | literal c, a => if c = a then emptyMatch else noMatch
  | anyCharNotNL, a => if a = '\n' then noMatch else emptyMatch
  | concat r s, a =>
    if nullable r then alternate (concat (deriv r a) s) (deriv s a)
    else concat (deriv r a) s
  | alternate r s, a => alternate (deriv r a) (deriv s a)
  | star r, a => concat (deriv r a) (star r)

/-- Does the expression match the whole of `s`. -/
def matchAll : Regex → List Char → Bool
  | r, [] => nullable r
  | r, a :: as => matchAll (deriv r a) as

/-- Does the expression match a prefix of `s`. -/
def matchPrefix : Regex → List Char → Bool
  | r, [] => nullable r
  | r, a :: as => nullable r || matchPrefix (deriv r a) as

/-- Does `s` contain a match of the expression: a match may start at any position
and end at any later one. -/
def matchAnywhere (r : Regex) : List Char → Bool
  | [] => nullable r
  | a :: as => matchPrefix r (a :: as) || matchAnywhere r as

end Regex

/-- One open group of the pattern being parsed: the alternatives closed by a `|`
so far and the items of the alternative being read, both latest first. -/
structure Frame where
  alts : List Regex
  items : List Regex

/-- Concatenation of the items of one alternative, given latest first. -/
def concatItems : List Regex → Regex
  | [] => Regex.emptyMatch
  | [r] => r
  | r :: rs => Regex.concat (concatItems rs) r

/-- Alternation of alternatives, given latest first. -/
def alternateAll : List Regex → Regex
  | [] => Regex.noMatch
  | [r] => r
  | r :: rs => Regex.alternate (alternateAll rs) r

/-- The expression of a group when it is closed. -/
def Frame.close (f : Frame) : Regex :=
  alternateAll (concatItems f.items :: f.alts)

/-- The parsing loop of `regexp/syntax` on the fragment, one character at a time
with the stack of open groups.  `lastRepeat` says that the item just read is a
repetition, which no repetition operator may follow but for one `?` (the
non-greedy mark, which does not change whether a string matches).  Syntax
outside the fragment is reported as an error of its own; the limits of Go on the
size and the nesting depth of an expression are left out. -/
def parseLoop : List Char → Frame → List Frame → Bool → Bool → Except String Regex
  | [], cur, [], _, _ => .ok cur.close
  | [], _, _ :: _, _, _ => .error "missing closing )"
  | c :: cs, cur, stack, lastRepeat, lazyOk =>
    if c = '(' then
      match cs with
      | '?' :: _ => .error "outside the fragment: (?"
      | _ => parseLoop cs ⟨[], []⟩ (cur :: stack) false false
    else if c = ')' then
      match stack with
      | [] => .error "unexpected )"
      | parent :: rest => parseLoop cs ⟨parent.alts, cur.close :: parent.items⟩ rest false false
    else if c = '|' then
      parseLoop cs ⟨concatItems cur.items :: cur.alts, []⟩ stack false false
    else if c = '*' ∨ c = '+' ∨ c = '?' then
      if c = '?' ∧ lazyOk then parseLoop cs cur stack true false
      else if lastRepeat then .error "invalid nested repetition operator"
      else
        match cur.items with
        | [] => .error "missing argument to repetition operator"
        | r :: rs =>
          let rep := if c = '*' then Regex.star r else if c = '+' then Regex.plus r else Regex.quest r
          parseLoop cs ⟨cur.alts, rep :: rs⟩ stack true true
    else if c = '.' then
      parseLoop cs ⟨cur.alts, Regex.anyCharNotNL :: cur.items⟩ stack false false
    else if c = Char.ofNat 92 then
      match cs with
      | [] => .error "trailing backslash at end of expression"
      | e :: rest =>
        if e.toNat < 128 ∧ e.isAlphanum = false then
          parseLoop rest ⟨cur.alts, Regex.literal e :: cur.items⟩ stack false false
        else .error "outside the fragment: escape sequence"
    else if c = '[' ∨ c = '{' ∨ c = '^' ∨ c = '$' then
      .error "outside the fragment: class, counted repetition or anchor"
    else
      parseLoop cs ⟨cur.alts, Regex.literal c :: cur.items⟩ stack false false

/-- Go `regexp.Compile` on the fragment. -/
def compileFragment (expr : String) : Except String Regex :=
  parseLoop expr.data ⟨[], []⟩ [] false false

/-- Go's `regexp` on the fragment: an expression compiles to its syntax tree and
a string matches when it contains a substring the expression matches. -/
def goRegexp : Regexp where
  Prog := Regex
  Compile := compileFragment
  MatchString := fun re s => re.matchAnywhere s.data

/-! ## The exclusion policy -/

/-- The loop of `isBlackListedNamespace` over the pieces of the policy field:
the first piece that matches ends it with `true`, the error of a piece that
does not compile is dropped. -/
def isBlackListedLoop (R : Regexp) (nsName : String) : List String → Bool
  | [] => false
  | blackListedNS :: rest =>
    let (matched, _) := regexp.MatchString R blackListedNS nsName
    if matched then true else isBlackListedLoop R nsName rest

/-- Source `isBlackListedNamespace(namespace, blacklistedNamespaces)`. -/
def isBlackListedNamespace (R : Regexp) (nsName : String) (blacklistedNamespaces : String) : Bool :=
  isBlackListedLoop R nsName (strings.Split blacklistedNamespaces ',')

/-! ## The objects of the cluster -/

/-- Go `types.NamespacedName`. -/
structure NamespacedName where
  Namespace : String := ""
  Name : String := ""
  deriving DecidableEq

/-- Go `reconcile.Request`: the name of the object to reconcile. -/
structure Request where
  NamespacedName : NamespacedName := {}
  deriving DecidableEq

/-- The promoted field `request.Name`. -/
def Request.Name (request : Request) : String := request.NamespacedName.Name

/-- Go `reconcile.Result`; `RequeueAfter` in nanoseconds. -/
structure Result where
  Requeue : Bool := false
  RequeueAfter : Nat := 0
  deriving DecidableEq

/-- Go `metav1.StatusReason`, the reasons an API error carries. -/
inductive StatusReason where
  | Unknown
  | NotFound
  | AlreadyExists
  | Forbidden
  | Conflict
  | Timeout
  | InternalError
  deriving DecidableEq

/-- An error returned by the client: its reason (`errors.ReasonForError`, which is
`Unknown` for an error that is not an API status) and its text. -/
structure Error where
  reason : StatusReason
  message : String
  deriving DecidableEq

/-- Go `errors.IsNotFound`. -/
def errors.IsNotFound (err : Error) : Bool := err.reason = StatusReason.NotFound

/-- Go `errors.IsAlreadyExists`. -/
def errors.IsAlreadyExists (err : Error) : Bool := err.reason = StatusReason.AlreadyExists

/-- Go `corev1.ConfigMap`: its name and its data, a map from field name to string
(`nil` in the zero value, here the empty list). -/
structure ConfigMap where
  Namespace : String := ""
  Name : String := ""
  Data : List (String × String) := []
  deriving DecidableEq

/-- Go map indexing `m[key]` on a `map[string]string`: the zero value `""` when the
key is absent or the map is `nil`. -/
def mapIndex (m : List (String × String)) (key : String) : String :=
  (m.lookup key).getD ""

/-- Go `corev1.NamespacePhase`, a string type. -/
abbrev NamespacePhase := String

/-- Go `corev1.NamespaceActive`. -/
def NamespaceActive : NamespacePhase := "Active"

/-- Go `corev1.NamespaceTerminating`. -/
def NamespaceTerminating : NamespacePhase := "Terminating"

/-- Go `corev1.NamespaceStatus`. -/
structure NamespaceStatus where
  Phase : NamespacePhase := ""
  deriving DecidableEq

/-- Go `corev1.Namespace`, the target resource. -/
structure Namespace where
  Name : String := ""
  Status : NamespaceStatus := {}
  deriving DecidableEq

/-- Go `rbacv1.Subject`. -/
structure Subject where
  Kind : String := ""
  Name : String := ""
  deriving DecidableEq

/-- Go `rbacv1.RoleRef`. -/
structure RoleRef where
  Kind : String := ""
  Name : String := ""
  deriving DecidableEq

/-- Go `rbacv1.RoleBinding`, the child object: its name, the namespace it is
scoped to, its subjects and the role it grants. -/
structure RoleBinding where
  Name : String := ""
  Namespace : String := ""
  Subjects : List Subject := []
  RoleRef : RoleRef := {}
  deriving DecidableEq

/-- The constants of package `config` the controller reads. -/
structure Config where
  OperatorConfigMapName : String
  OperatorNamespace : String
  deriving DecidableEq

/-! ## The collaborators -/

/-- The controller-runtime client over a store with states `σ`.  A `Get` receives
the object the caller passes in and returns it as the call leaves it, with the
error; `Create` returns the submitted object as the call leaves it.  Every call
may change the store. -/
structure Client (σ : Type) where
  /-- Go `client.Get(ctx, key, obj)` for a `*corev1.ConfigMap`. -/
  GetConfigMap : NamespacedName → ConfigMap → σ → (ConfigMap × Option Error) × σ
  /-- Go `client.Get(ctx, key, obj)` for a `*corev1.Namespace`. -/
  GetNamespace : NamespacedName → Namespace → σ → (Namespace × Option Error) × σ
  /-- Go `client.Create(ctx, obj)` for a `*rbacv1.RoleBinding`. -/
  Create : RoleBinding → σ → (RoleBinding × Option Error) × σ

/-- What a pass does that can be observed from outside, in the order it happens. -/
inductive Event where
  /-- A line of the request logger: `reqLogger.Info(msg, keysAndValues...)`. -/
  | info (msg : String) (keysAndValues : List (String × String))
  /-- A fetch of the policy document and the error it returned. -/
  | getConfigMap (key : NamespacedName) (err : Option Error)
  /-- A fetch of the target resource and the error it returned. -/
  | getNamespace (key : NamespacedName) (err : Option Error)
  /-- A creation attempt: the object submitted and the error returned. -/
  | create (obj : RoleBinding) (err : Option Error)
  /-- A call of `metrics.IncBlacklistedCount`. -/
  | incBlacklistedCount
  deriving DecidableEq

/-- The state a pass runs in: the store behind the client, the counter of
excluded passes, the package variable `desiredRolebindings` and the events so
far. -/
structure State (σ : Type) where
  store : σ
  blacklistedCount : Nat
  desiredRolebindings : List RoleBinding
  trace : List Event

/-- Go `logr.Logger` as the controller uses it: the key/value pairs given to
`WithValues`, which every line of the logger carries. -/
structure Logger where
  values : List (String × String) := []
  deriving DecidableEq

/-- The package variable `log`, the logger named
`dedicated-admin-namespace-controller`. -/
def log : Logger := {}

/-- Go `logger.WithValues(keysAndValues...)`. -/
def Logger.WithValues (l : Logger) (keysAndValues : List (String × String)) : Logger :=
  { values := l.values ++ keysAndValues }

/-- Go `logger.Info(msg, keysAndValues...)`. -/
def Logger.Info {σ : Type} (l : Logger) (w : State σ) (msg : String)
    (keysAndValues : List (String × String)) : State σ :=
  { w with trace := w.trace ++ [Event.info msg (l.values ++ keysAndValues)] }

/-- Modelled from the spec: `metrics.IncBlacklistedCount` of package `pkg/metrics`,
which is not among the sources; it increments the counter of excluded passes by
one. -/
def metrics.IncBlacklistedCount {σ : Type} (w : State σ) : State σ :=
  { w with blacklistedCount := w.blacklistedCount + 1,
           trace := w.trace ++ [Event.incBlacklistedCount] }

/-! ## The controller -/

/-- Source `(r *ReconcileNamespace) getOperatorConfig(ctx)`: fetches the config map
named by the constants of `config` into a fresh object and returns the object
together with the error of the fetch. -/
def getOperatorConfig {σ : Type} (cfg : Config) (c : Client σ) (w : State σ) :
    (ConfigMap × Option Error) × State σ :=
  let configMap : NamespacedName :=
    { Name := cfg.OperatorConfigMapName, Namespace := cfg.OperatorNamespace }
  let operatorConfig : ConfigMap := {}
  let r := c.GetConfigMap configMap operatorConfig w.store
  (r.1, { w with store := r.2, trace := w.trace ++ [Event.getConfigMap configMap r.1.2] })

/-- The body of the loop of `Reconcile` for one desired role binding: the item is
copied into the loop variable `rb`, the copy is given the namespace of the request
and submitted for creation; an error other than already-exists is logged. -/
def applyItem {σ : Type} (c : Client σ) (request : Request) (rb : RoleBinding) (w : State σ) :
    State σ :=
  let reqLogger := log.WithValues [("Request.Namespace", request.Name)]
  let w := reqLogger.Info w "Assigning RoleBinding to Namespace" [("ClusterRoleBinding", rb.Name)]
  let rb : RoleBinding := { rb with Namespace := request.Name }
  let r := c.Create rb w.store
  let w : State σ := { w with store := r.2, trace := w.trace ++ [Event.create rb r.1.2] }
  match r.1.2 with
  | some err =>
    if !errors.IsAlreadyExists err then
      reqLogger.Info w "Error creating rolebinding"
        [("ClusterRoleBinding", r.1.1.Name), ("Error", err.message)]
    else w
  | none => w

/-- The loop of `Reconcile` over the desired role bindings, in their order; whatever
a creation returns, the loop goes on with the next item. -/
def applyLoop {σ : Type} (c : Client σ) (request : Request) :
    List RoleBinding → State σ → State σ
  | [], w => w
  | rb :: rest, w => applyLoop c request rest (applyItem c request rb w)

/-- Source `(r *ReconcileNamespace) Reconcile(request)`: one pass for the namespace
named by the request.  Returns the result and the error of the pass and the state
it leaves. -/
def Reconcile {σ : Type} (R : Regexp) (cfg : Config) (c : Client σ) (request : Request)
    (w : State σ) : (Result × Option Error) × State σ :=
  let reqLogger := log.WithValues [("Request.Namespace", request.Name)]
  let r := getOperatorConfig cfg c w
  let operatorConfig := r.1.1
  let w := if r.1.2.isSome then reqLogger.Info r.2 "Error Loading Operator Config" [] else r.2
  if isBlackListedNamespace R request.Name (mapIndex operatorConfig.Data "project_blacklist") then
    let w := reqLogger.Info w "Blacklisted Namespace - Skipping" []
    let w := metrics.IncBlacklistedCount w
    (({}, none), w)
  else
    let ns : Namespace := {}
    let g := c.GetNamespace request.NamespacedName ns w.store
    let w : State σ :=
      { w with store := g.2, trace := w.trace ++ [Event.getNamespace request.NamespacedName g.1.2] }
    match g.1.2 with
    | some err =>
      if errors.IsNotFound err then
        (({}, none), reqLogger.Info w "Object not ready" [])
      else
        (({}, some err), reqLogger.Info w "Error Getting Namespace" [])
    | none =>
      if g.1.1.Status.Phase = NamespaceTerminating then
        (({}, none), reqLogger.Info w "Namespace Being Deleted" [])
      else
        (({}, none), applyLoop c request w.desiredRolebindings w)

/-! ## Observations of a pass -/

/-- The creation attempts among the events: object submitted and error returned. -/
def creations : List Event → List (RoleBinding × Option Error)
  | [] => []
  | Event.create obj err :: es => (obj, err) :: creations es
  | _ :: es => creations es

/-- The fetches of a target resource among the events. -/
def fetches : List Event → List NamespacedName
  | [] => []
  | Event.getNamespace key _ :: es => key :: fetches es
  | _ :: es => fetches es

/-- The number of calls of `metrics.IncBlacklistedCount` among the events. -/
def excludedCalls : List Event → Nat
  | [] => 0
  | Event.incBlacklistedCount :: es => excludedCalls es + 1
  | _ :: es => excludedCalls es

/-- What the fetch of the policy document returns in state `w`. -/
def policyLoad {σ : Type} (cfg : Config) (c : Client σ) (w : State σ) :
    (ConfigMap × Option Error) × σ :=
  c.GetConfigMap { Name := cfg.OperatorConfigMapName, Namespace := cfg.OperatorNamespace } {}
    w.store

/-- The policy field `project_blacklist` of the document the fetch leaves. -/
def policyField {σ : Type} (cfg : Config) (c : Client σ) (w : State σ) : String :=
  mapIndex (policyLoad cfg c w).1.1.Data "project_blacklist"

/-- Is the namespace of the request excluded by the policy loaded in state `w`. -/
def excluded {σ : Type} (R : Regexp) (cfg : Config) (c : Client σ) (request : Request)
    (w : State σ) : Bool :=
  isBlackListedNamespace R request.Name (policyField cfg c w)

/-- What the fetch of the target resource returns when it follows the fetch of
the policy document in state `w`. -/
def targetFetch {σ : Type} (cfg : Config) (c : Client σ) (request : Request) (w : State σ) :
    (Namespace × Option Error) × σ :=
  c.GetNamespace request.NamespacedName {} (policyLoad cfg c w).2

/-- The state in which the exclusion check runs: after the fetch of the policy
document and the log line of a failed fetch. -/
def afterLoad {σ : Type} (cfg : Config) (c : Client σ) (request : Request) (w : State σ) :
    State σ :=
  if (getOperatorConfig cfg c w).1.2.isSome then
    (log.WithValues [("Request.Namespace", request.Name)]).Info (getOperatorConfig cfg c w).2
      "Error Loading Operator Config" []
  else (getOperatorConfig cfg c w).2

/-- The state after the fetch of the target resource. -/
def afterFetch {σ : Type} (cfg : Config) (c : Client σ) (request : Request) (w : State σ) :
    State σ :=
  { afterLoad cfg c request w with
    store := (targetFetch cfg c request w).2,
    trace := (afterLoad cfg c request w).trace ++
      [Event.getNamespace request.NamespacedName (targetFetch cfg c request w).1.2] }

/-- The template `rb` scoped to namespace `target`. -/
def scopedTo (target : String) (rb : RoleBinding) : RoleBinding :=
  { rb with Namespace := target }

/-! ## Stores for closed statements -/

/-- A cluster: the config maps, the namespaces and the role bindings it holds. -/
structure Cluster where
  configMaps : List ConfigMap := []
  namespaces : List Namespace := []
  roleBindings : List RoleBinding := []
  deriving DecidableEq

/-- Is a role binding with the name and the namespace of `rb` in the cluster. -/
def Cluster.present (s : Cluster) (rb : RoleBinding) : Bool :=
  s.roleBindings.any (fun x => x.Name = rb.Name ∧ x.Namespace = rb.Namespace)

/-- The error of a read of an object the cluster does not hold. -/
def notFoundError : Error := { reason := StatusReason.NotFound, message := "not found" }

/-- The error of a creation of an object the cluster holds already. -/
def alreadyExistsError : Error :=
  { reason := StatusReason.AlreadyExists, message := "already exists" }

/-- A client over a cluster.  A read of an object that is absent fails with
not-found and leaves the caller's object as it was.  A creation succeeds and adds
the child unless a child of the same name and namespace is present, in which case
it fails with already-exists and changes nothing. -/
def clusterClient : Client Cluster where
  GetConfigMap := fun key obj s =>
    match s.configMaps.find? (fun m => m.Namespace = key.Namespace ∧ m.Name = key.Name) with
    | some m => ((m, none), s)
    | none => ((obj, some notFoundError), s)
  GetNamespace := fun key obj s =>
    match s.namespaces.find? (fun n => n.Name = key.Name) with
    | some n => ((n, none), s)
    | none => ((obj, some notFoundError), s)
  Create := fun rb s =>
    if s.present rb then ((rb, some alreadyExistsError), s)
    else ((rb, none), { s with roleBindings := s.roleBindings ++ [rb] })

/-- A client whose creations return the scripted outcomes, one after the other
(success once the script is used up); the state counts the creations.  The policy
document it serves has the given `project_blacklist` field and every namespace it
serves is in the given phase. -/
def scriptedClient (policy : String) (phase : NamespacePhase) (outcomes : List (Option Error)) :
    Client Nat where
  GetConfigMap := fun key _ n =>
    (({ Namespace := key.Namespace, Name := key.Name, Data := [("project_blacklist", policy)] },
      none), n)
  GetNamespace := fun key _ n => (({ Name := key.Name, Status := { Phase := phase } }, none), n)
  Create := fun rb n => ((rb, (outcomes.getD n none)), n + 1)

/-- Constants of package `config` for the closed statements. -/
def sampleConfig : Config :=
  { OperatorConfigMapName := "dedicated-admin-operator-config",
    OperatorNamespace := "openshift-dedicated-admin" }

/-- A desired set of two role bindings for the closed statements. -/
def sampleRolebindings : List RoleBinding :=
  [{ Name := "dedicated-admins-project-0",
     Subjects := [{ Kind := "Group", Name := "dedicated-admins" }],
     RoleRef := { Kind := "ClusterRole", Name := "admin" } },
   { Name := "dedicated-admins-project-1",
     Subjects := [{ Kind := "Group", Name := "dedicated-admins" }],
     RoleRef := { Kind := "ClusterRole", Name := "dedicated-admins-project" } }]

/-- The policy document with the given `project_blacklist` field. -/
def policyDocument (policy : String) : ConfigMap :=
  { Namespace := sampleConfig.OperatorNamespace, Name := sampleConfig.OperatorConfigMapName,
    Data := [("project_blacklist", policy)] }

/-- The request for the namespace `name`. -/
def requestFor (name : String) : Request := { NamespacedName := { Name := name } }

/-- The state before a first pass over the store `s` with the sample desired set. -/
def initialState {σ : Type} (s : σ) : State σ :=
  { store := s, blacklistedCount := 0, desiredRolebindings := sampleRolebindings, trace := [] }

/-- A cluster with the policy `kube-.*,openshift-.*` and the namespace `name` in
the given phase. -/
def clusterWith (name : String) (phase : NamespacePhase) : Cluster :=
  { configMaps := [policyDocument "kube-.*,openshift-.*"],
    namespaces := [{ Name := name, Status := { Phase := phase } }] }

/-- An error of a creation that the store refuses. -/
def forbiddenError : Error := { reason := StatusReason.Forbidden, message := "forbidden" }

/-! ## Lemmas on the standard library models -/

theorem splitChars_ne_nil (sep : Char) (s : List Char) : splitChars sep s ≠ [] := by
  cases s with
  | nil => simp [splitChars]
  | cons c cs =>
    rw [splitChars]
    split
    · simp
    · split <;> simp

theorem intercalate_cons_cons (sep a b : List Char) (l : List (List Char)) :
    List.intercalate sep (a :: b :: l) = a ++ sep ++ List.intercalate sep (b :: l) := by
  simp [List.intercalate, List.intersperse]

theorem intercalate_singleton (sep a : List Char) : List.intercalate sep [a] = a := by
  simp [List.intercalate, List.intersperse]

/-- Joining the pieces of a split with the separator gives the string back. -/
theorem splitChars_intercalate (sep : Char) (s : List Char) :
    List.intercalate [sep] (splitChars sep s) = s := by
  induction s with
  | nil => rfl
  | cons c cs ih =>
    rw [splitChars]
    cases hs : splitChars sep cs with
    | nil => exact absurd hs (splitChars_ne_nil sep cs)
    | cons p ps =>
      rw [hs] at ih
      by_cases h : c = sep
      · rw [if_pos h, intercalate_cons_cons, ih, h]
        rfl
      · rw [if_neg h]
        cases ps with
        | nil =>
          rw [intercalate_singleton] at ih
          simp only [intercalate_singleton, ih]
        | cons q qs =>
          rw [intercalate_cons_cons] at ih
          simp only [intercalate_cons_cons]
          rw [← ih]
          simp

/-- No piece of a split holds the separator. -/
theorem splitChars_no_sep (sep : Char) (s : List Char) :
    ∀ p ∈ splitChars sep s, sep ∉ p := by
  induction s with
  | nil => simp [splitChars]
  | cons c cs ih =>
    rw [splitChars]
    by_cases h : c = sep
    · rw [if_pos h]
      intro p hp
      rcases List.mem_cons.mp hp with hp | hp
      · subst hp
        simp
      · exact ih p hp
    · rw [if_neg h]
      cases hs : splitChars sep cs with
      | nil => exact absurd hs (splitChars_ne_nil sep cs)
      | cons q qs =>
        rw [hs] at ih
        intro p hp
        rcases List.mem_cons.mp hp with hp | hp
        · subst hp
          intro hm
          rcases List.mem_cons.mp hm with hm | hm
          · exact h hm.symm
          · exact ih q (List.mem_cons_self _ _) hm
        · exact ih p (List.mem_cons_of_mem _ hp)

namespace Regex

theorem nullable_iff (r : Regex) : r.nullable = true ↔ r.Matches [] := by
  induction r with
  | noMatch => simp [nullable, Matches]
  | emptyMatch => simp [nullable, Matches]
  | literal c => simp [nullable, Matches]
  | anyCharNotNL => simp [nullable, Matches]
  | concat r s ihr ihs =>
    simp only [nullable, Matches, Bool.and_eq_true, ihr, ihs]
    constructor
    · rintro ⟨h1, h2⟩
      exact ⟨[], [], rfl, h1, h2⟩
    · rintro ⟨t, u, h, h1, h2⟩
      have ht : t = [] := by
        cases t with
        | nil => rfl
        | cons _ _ => simp at h
      have hu : u = [] := by
        subst ht
        simpa using h.symm
      subst ht
      subst hu
      exact ⟨h1, h2⟩
  | alternate r s ihr ihs => simp [nullable, Matches, ihr, ihs]
  | star r _ =>
    simp only [nullable, Matches, true_iff]
    exact ⟨[], rfl, by simp⟩

theorem deriv_iff (r : Regex) (a : Char) (x : List Char) :
    (r.deriv a).Matches x ↔ r.Matches (a :: x) := by
  induction r generalizing x with
  | noMatch => simp [deriv, Matches]
  | emptyMatch => simp [deriv, Matches]
  | literal c =>
    by_cases h : c = a
    · subst h
      simp [deriv, Matches]
    · simp only [deriv, h, if_false, Matches, List.cons.injEq, false_iff, not_and]
      intro h'
      exact absurd h'.symm h
  | anyCharNotNL =>
    by_cases h : a = '\n'
    · subst h
      simp only [deriv, if_true, Matches, false_iff]
      rintro ⟨c, hc, he⟩
      simp only [List.cons.injEq] at he
      exact hc he.1.symm
    · simp only [deriv, h, if_false, Matches]
      constructor
      · intro hx
        exact ⟨a, h, by rw [hx]⟩
      · rintro ⟨c, _, he⟩
        simp only [List.cons.injEq] at he
        exact he.2
  | concat r s ihr ihs =>
    have hcat : (∃ t u, x = t ++ u ∧ (r.deriv a).Matches t ∧ s.Matches u) ↔
        ∃ t u, a :: x = (a :: t) ++ u ∧ r.Matches (a :: t) ∧ s.Matches u := by
      constructor
      · rintro ⟨t, u, h, h1, h2⟩
        exact ⟨t, u, by rw [h]; rfl, (ihr t).mp h1, h2⟩
      · rintro ⟨t, u, h, h1, h2⟩
        simp only [List.cons_append, List.cons.injEq, true_and] at h
        exact ⟨t, u, h, (ihr t).mpr h1, h2⟩
    by_cases hn : r.nullable = true
    · simp only [deriv, hn, if_true, Matches]
      rw [hcat, ihs]
      constructor
      · rintro (⟨t, u, h, h1, h2⟩ | h)
        · exact ⟨a :: t, u, h, h1, h2⟩
        · exact ⟨[], a :: x, rfl, (nullable_iff r).mp hn, h⟩
      · rintro ⟨t, u, h, h1, h2⟩
        cases t with
        | nil =>
          simp only [List.nil_append] at h
          subst h
          exact Or.inr h2
        | cons b t =>
          simp only [List.cons_append, List.cons.injEq] at h
          obtain ⟨hb, hx⟩ := h
          subst hb
          exact Or.inl ⟨t, u, by rw [hx]; rfl, h1, h2⟩
    · simp only [deriv, hn, Bool.false_eq_true, if_false, Matches]
      rw [hcat]
      constructor
      · rintro ⟨t, u, h, h1, h2⟩
        exact ⟨a :: t, u, h, h1, h2⟩
      · rintro ⟨t, u, h, h1, h2⟩
        cases t with
        | nil => exact absurd ((nullable_iff r).mpr h1) hn
        | cons b t =>
          simp only [List.cons_append, List.cons.injEq] at h
          obtain ⟨hb, hx⟩ := h
          subst hb
          exact ⟨t, u, by rw [hx]; rfl, h1, h2⟩
  | alternate r s ihr ihs => simp [deriv, Matches, ihr, ihs]
  | star r ih =>
    simp only [deriv, Matches]
    constructor
    · rintro ⟨t, u, h, h1, ts, hu, hts⟩
      refine ⟨(a :: t) :: ts, ?_, ?_⟩
      · simp [h, hu]
      · intro y hy
        rcases List.mem_cons.mp hy with hy | hy
        · subst hy
          exact ⟨by simp, (ih t).mp h1⟩
        · exact hts y hy
    · rintro ⟨ts, h, hts⟩
      cases ts with
      | nil => simp at h
      | cons t0 ts =>
        have h0 := hts t0 (List.mem_cons_self _ _)
        cases t0 with
        | nil => exact absurd rfl h0.1
        | cons b t0 =>
          simp only [List.flatten_cons, List.cons_append, List.cons.injEq] at h
          obtain ⟨hb, hx⟩ := h
          subst hb
          exact ⟨t0, ts.flatten, hx, (ih t0).mpr h0.2, ts, rfl,
            fun y hy => hts y (List.mem_cons_of_mem _ hy)⟩

theorem matchAll_iff (r : Regex) (x : List Char) : r.matchAll x = true ↔ r.Matches x := by
  induction x generalizing r with
  | nil => exact nullable_iff r
  | cons a x ih => rw [matchAll, ih, deriv_iff]

theorem matchPrefix_iff (r : Regex) (x : List Char) :
    r.matchPrefix x = true ↔ ∃ t u, x = t ++ u ∧ r.Matches t := by
  induction x generalizing r with
  | nil =>
    rw [matchPrefix, nullable_iff]
    constructor
    · intro h
      exact ⟨[], [], rfl, h⟩
    · rintro ⟨t, u, h, ht⟩
      cases t with
      | nil => exact ht
      | cons _ _ => simp at h
  | cons a x ih =>
    rw [matchPrefix, Bool.or_eq_true, ih, nullable_iff]
    constructor
    · rintro (h | ⟨t, u, h, ht⟩)
      · exact ⟨[], a :: x, rfl, h⟩
      · exact ⟨a :: t, u, by rw [h]; rfl, (deriv_iff r a t).mp ht⟩
    · rintro ⟨t, u, h, ht⟩
      cases t with
      | nil => exact Or.inl ht
      | cons b t =>
        simp only [List.cons_append, List.cons.injEq] at h
        obtain ⟨hb, hx⟩ := h
        subst hb
        exact Or.inr ⟨t, u, hx, (deriv_iff r a t).mpr ht⟩

theorem matchAnywhere_iff (r : Regex) (x : List Char) :
    r.matchAnywhere x = true ↔ ∃ pre mid post, x = pre ++ mid ++ post ∧ r.Matches mid := by
  induction x with
  | nil =>
    rw [matchAnywhere, nullable_iff]
    constructor
    · intro h
      exact ⟨[], [], [], rfl, h⟩
    · rintro ⟨pre, mid, post, h, hm⟩
      cases mid with
      | nil => exact hm
      | cons _ _ => simp at h
  | cons a x ih =>
    rw [matchAnywhere, Bool.or_eq_true, ih, matchPrefix_iff]
    constructor
    · rintro (⟨t, u, h, ht⟩ | ⟨pre, mid, post, h, hm⟩)
      · exact ⟨[], t, u, by rw [h]; rfl, ht⟩
      · exact ⟨a :: pre, mid, post, by rw [h]; rfl, hm⟩
    · rintro ⟨pre, mid, post, h, hm⟩
      cases pre with
      | nil => exact Or.inl ⟨mid, post, by rw [h]; rfl, hm⟩
      | cons b pre =>
        simp only [List.cons_append, List.cons.injEq] at h
        exact Or.inr ⟨pre, mid, post, h.2, hm⟩

end Regex
/-- On the fragment, a string matches a compiled expression exactly when one of
its substrings is matched by the expression as a whole. -/
theorem goRegexp_MatchString_iff (re : Regex) (s : String) :
    goRegexp.MatchString re s = true ↔
      ∃ pre mid post, s.data = pre ++ mid ++ post ∧ re.Matches mid :=
  Regex.matchAnywhere_iff re s.data

/-! ## Lemmas on events -/

theorem creations_append (es fs : List Event) :
    creations (es ++ fs) = creations es ++ creations fs := by
  induction es with
  | nil => rfl
  | cons e es ih => cases e <;> simp [creations, ih]

theorem fetches_append (es fs : List Event) :
    fetches (es ++ fs) = fetches es ++ fetches fs := by
  induction es with
  | nil => rfl
  | cons e es ih => cases e <;> simp [fetches, ih]

theorem excludedCalls_append (es fs : List Event) :
    excludedCalls (es ++ fs) = excludedCalls es + excludedCalls fs := by
  induction es with
  | nil => simp [excludedCalls]
  | cons e es ih =>
    cases e <;> simp [excludedCalls, ih]
    omega

/-! ## Lemmas on the apply loop -/

theorem applyItem_desiredRolebindings {σ : Type} (c : Client σ) (request : Request)
    (rb : RoleBinding) (w : State σ) :
    (applyItem c request rb w).desiredRolebindings = w.desiredRolebindings := by
  unfold applyItem
  simp only [Logger.Info]
  split
  · split <;> rfl
  · rfl

theorem applyItem_blacklistedCount {σ : Type} (c : Client σ) (request : Request)
    (rb : RoleBinding) (w : State σ) :
    (applyItem c request rb w).blacklistedCount = w.blacklistedCount := by
  unfold applyItem
  simp only [Logger.Info]
  split
  · split <;> rfl
  · rfl

theorem applyItem_store {σ : Type} (c : Client σ) (request : Request)
    (rb : RoleBinding) (w : State σ) :
    (applyItem c request rb w).store = (c.Create (scopedTo request.Name rb) w.store).2 := by
  unfold applyItem
  simp only [Logger.Info]
  split
  · split <;> rfl
  · rfl

theorem applyItem_creations {σ : Type} (c : Client σ) (request : Request)
    (rb : RoleBinding) (w : State σ) :
    creations (applyItem c request rb w).trace =
      creations w.trace ++
        [(scopedTo request.Name rb, (c.Create (scopedTo request.Name rb) w.store).1.2)] := by
  unfold applyItem
  simp only [Logger.Info]
  split
  · split <;> simp [creations_append, creations, scopedTo]
  · simp [creations_append, creations, scopedTo]

theorem applyItem_fetches {σ : Type} (c : Client σ) (request : Request)
    (rb : RoleBinding) (w : State σ) :
    fetches (applyItem c request rb w).trace = fetches w.trace := by
  unfold applyItem
  simp only [Logger.Info]
  split
  · split <;> simp [fetches_append, fetches]
  · simp [fetches_append, fetches]

theorem applyItem_excludedCalls {σ : Type} (c : Client σ) (request : Request)
    (rb : RoleBinding) (w : State σ) :
    excludedCalls (applyItem c request rb w).trace = excludedCalls w.trace := by
  unfold applyItem
  simp only [Logger.Info]
  split
  · split <;> simp [excludedCalls_append, excludedCalls]
  · simp [excludedCalls_append, excludedCalls]

theorem applyLoop_desiredRolebindings {σ : Type} (c : Client σ) (request : Request)
    (rbs : List RoleBinding) (w : State σ) :
    (applyLoop c request rbs w).desiredRolebindings = w.desiredRolebindings := by
  induction rbs generalizing w with
  | nil => rfl
  | cons rb rest ih => rw [applyLoop, ih, applyItem_desiredRolebindings]

theorem applyLoop_creations_length {σ : Type} (c : Client σ) (request : Request)
    (rbs : List RoleBinding) (w : State σ) :
    (creations (applyLoop c request rbs w).trace).length =
      (creations w.trace).length + rbs.length := by
  induction rbs generalizing w with
  | nil => rfl
  | cons rb rest ih =>
    rw [applyLoop, ih, applyItem_creations]
    simp only [List.length_append, List.length_cons, List.length_nil]
    omega

theorem applyLoop_submitted {σ : Type} (c : Client σ) (request : Request)
    (rbs : List RoleBinding) (w : State σ) :
    (creations (applyLoop c request rbs w).trace).map Prod.fst =
      (creations w.trace).map Prod.fst ++ rbs.map (scopedTo request.Name) := by
  induction rbs generalizing w with
  | nil => simp [applyLoop]
  | cons rb rest ih =>
    rw [applyLoop, ih, applyItem_creations]
    simp

/-! ## Lemmas on the pass -/

theorem afterLoad_store {σ : Type} (cfg : Config) (c : Client σ) (request : Request)
    (w : State σ) :
    (afterLoad cfg c request w).store = (policyLoad cfg c w).2 := by
  unfold afterLoad
  split <;> rfl

theorem afterLoad_desiredRolebindings {σ : Type} (cfg : Config) (c : Client σ) (request : Request)
    (w : State σ) :
    (afterLoad cfg c request w).desiredRolebindings = w.desiredRolebindings := by
  unfold afterLoad
  split <;> rfl

theorem afterLoad_blacklistedCount {σ : Type} (cfg : Config) (c : Client σ) (request : Request)
    (w : State σ) :
    (afterLoad cfg c request w).blacklistedCount = w.blacklistedCount := by
  unfold afterLoad
  split <;> rfl

theorem afterLoad_creations {σ : Type} (cfg : Config) (c : Client σ) (request : Request)
    (w : State σ) :
    creations (afterLoad cfg c request w).trace = creations w.trace := by
  unfold afterLoad
  split <;> simp [getOperatorConfig, Logger.Info, creations_append, creations]

theorem afterLoad_fetches {σ : Type} (cfg : Config) (c : Client σ) (request : Request)
    (w : State σ) :
    fetches (afterLoad cfg c request w).trace = fetches w.trace := by
  unfold afterLoad
  split <;> simp [getOperatorConfig, Logger.Info, fetches_append, fetches]

theorem afterLoad_excludedCalls {σ : Type} (cfg : Config) (c : Client σ) (request : Request)
    (w : State σ) :
    excludedCalls (afterLoad cfg c request w).trace = excludedCalls w.trace := by
  unfold afterLoad
  split <;> simp [getOperatorConfig, Logger.Info, excludedCalls_append, excludedCalls]

/-- The pass, case by case. -/
theorem Reconcile_eq {σ : Type} (R : Regexp) (cfg : Config) (c : Client σ) (request : Request)
    (w : State σ) :
    Reconcile R cfg c request w =
      if excluded R cfg c request w then
        (({}, none),
          metrics.IncBlacklistedCount
            ((log.WithValues [("Request.Namespace", request.Name)]).Info
              (afterLoad cfg c request w) "Blacklisted Namespace - Skipping" []))
      else
        match (targetFetch cfg c request w).1.2 with
        | some err =>
          if errors.IsNotFound err then
            (({}, none), 
              (log.WithValues [("Request.Namespace", request.Name)]).Info
                (afterFetch cfg c request w) "Object not ready" [])
          else
            (({}, some err), 
              (log.WithValues [("Request.Namespace", request.Name)]).Info
                (afterFetch cfg c request w) "Error Getting Namespace" [])
        | none =>
          if (targetFetch cfg c request w).1.1.Status.Phase = NamespaceTerminating then
            (({}, none), 
              (log.WithValues [("Request.Namespace", request.Name)]).Info
                (afterFetch cfg c request w) "Namespace Being Deleted" [])
          else
            (({}, none),
              applyLoop c request w.desiredRolebindings (afterFetch cfg c request w)) := by
  have hs : (afterLoad cfg c request w).store = (policyLoad cfg c w).2 := afterLoad_store cfg c request w
  have hd : (afterLoad cfg c request w).desiredRolebindings = w.desiredRolebindings :=
    afterLoad_desiredRolebindings cfg c request w
  unfold Reconcile excluded policyField afterFetch targetFetch
  simp only [← hs, ← hd]
  rfl

/-! ## The pass: errors, exclusion, readiness -/

/-- C10: a pass leaves the package variable `desiredRolebindings` as it found it,
whatever the identifier and whatever the store returns: the namespace is stamped
on the loop's copy of an item, never on the item. -/
theorem Reconcile_preserves_desiredRolebindings {σ : Type} (R : Regexp) (cfg : Config)
    (c : Client σ) (request : Request) (w : State σ) :
    (Reconcile R cfg c request w).2.desiredRolebindings = w.desiredRolebindings := by
  rw [Reconcile_eq]
  split
  · simp [metrics.IncBlacklistedCount, Logger.Info, afterLoad_desiredRolebindings]
  · split
    · split <;> simp [Logger.Info, afterFetch, afterLoad_desiredRolebindings]
    · split
      · simp [Logger.Info, afterFetch, afterLoad_desiredRolebindings]
      · simp [applyLoop_desiredRolebindings, afterFetch, afterLoad_desiredRolebindings]

/-- C5: the pass returns the error `err` exactly when the identifier is not
excluded and the fetch of the target resource fails with `err`, an error other
than not-found.  So the error of the policy load, a not-found fetch, a
terminating resource and the errors of the creations all leave the returned error
nil. -/
theorem Reconcile_error_iff {σ : Type} (R : Regexp) (cfg : Config) (c : Client σ)
    (request : Request) (w : State σ) (err : Error) :
    (Reconcile R cfg c request w).1.2 = some err ↔
      (excluded R cfg c request w = false ∧
        (targetFetch cfg c request w).1.2 = some err ∧ errors.IsNotFound err = false) := by
  rw [Reconcile_eq]
  split
  · rename_i h
    simp [h]
  · rename_i h
    split
    · rename_i e he
      split
      · rename_i hnf
        simp only [he, Option.some.injEq, reduceCtorEq, false_iff, not_and]
        intro _ hee
        subst hee
        simp [hnf]
      · rename_i hnf
        simp only [he, Option.some.injEq]
        constructor
        · intro hee
          subst hee
          exact ⟨by simpa using h, by simpa using hnf⟩
        · intro hh
          exact hh.2.1
    · rename_i he
      split <;> simp [he]

/-- C7: when the loaded policy excludes the identifier, the pass returns the empty
result and no error, fetches no target resource, attempts no creation, calls
`metrics.IncBlacklistedCount` once and so raises the counter of excluded passes
by exactly one; the store is as the policy load left it. -/
theorem Reconcile_excluded_skips {σ : Type} (R : Regexp) (cfg : Config) (c : Client σ)
    (request : Request) (w : State σ)
    (h : isBlackListedNamespace R request.Name
      (mapIndex (policyLoad cfg c w).1.1.Data "project_blacklist") = true) :
    (Reconcile R cfg c request w).1 = ({}, none) ∧
      fetches (Reconcile R cfg c request w).2.trace = fetches w.trace ∧
      creations (Reconcile R cfg c request w).2.trace = creations w.trace ∧
      excludedCalls (Reconcile R cfg c request w).2.trace = excludedCalls w.trace + 1 ∧
      (Reconcile R cfg c request w).2.blacklistedCount = w.blacklistedCount + 1 ∧
      (Reconcile R cfg c request w).2.store = (policyLoad cfg c w).2 := by
  have hx : excluded R cfg c request w = true := h
  rw [Reconcile_eq, hx]
  simp [metrics.IncBlacklistedCount, Logger.Info, fetches_append, creations_append,
    excludedCalls_append, fetches, creations, excludedCalls, afterLoad_fetches,
    afterLoad_creations, afterLoad_excludedCalls, afterLoad_blacklistedCount, afterLoad_store]

/-- C4: when the identifier is not excluded and the target resource is not ready,
its fetch failing with not-found or returning it in phase Terminating, the pass
attempts no creation: the creation attempts recorded after the pass are the ones
recorded before it. -/
theorem Reconcile_not_ready_no_creation {σ : Type} (R : Regexp) (cfg : Config) (c : Client σ)
    (request : Request) (w : State σ)
    (hnb : excluded R cfg c request w = false)
    (hnr : (∃ err, (targetFetch cfg c request w).1.2 = some err ∧ errors.IsNotFound err = true) ∨
      ((targetFetch cfg c request w).1.2 = none ∧
        (targetFetch cfg c request w).1.1.Status.Phase = NamespaceTerminating)) :
    creations (Reconcile R cfg c request w).2.trace = creations w.trace ∧
      (creations (Reconcile R cfg c request w).2.trace).length = (creations w.trace).length := by
  have key : creations (Reconcile R cfg c request w).2.trace = creations w.trace := by
    rw [Reconcile_eq, hnb]
    rcases hnr with ⟨err, he, hnf⟩ | ⟨he, hp⟩
    · simp [he, hnf, Logger.Info, afterFetch, creations_append, creations, afterLoad_creations]
    · simp [he, hp, Logger.Info, afterFetch, creations_append, creations, afterLoad_creations]
  exact ⟨key, by rw [key]⟩

/-! ## The pass: the apply loop -/

theorem Reconcile_apply {σ : Type} (R : Regexp) (cfg : Config) (c : Client σ)
    (request : Request) (w : State σ)
    (hnb : excluded R cfg c request w = false)
    (hfetch : (targetFetch cfg c request w).1.2 = none)
    (hphase : (targetFetch cfg c request w).1.1.Status.Phase ≠ NamespaceTerminating) :
    Reconcile R cfg c request w =
      (({}, none), applyLoop c request w.desiredRolebindings (afterFetch cfg c request w)) := by
  rw [Reconcile_eq, hnb]
  simp [hfetch, hphase]

theorem afterFetch_creations {σ : Type} (cfg : Config) (c : Client σ) (request : Request)
    (w : State σ) : creations (afterFetch cfg c request w).trace = creations w.trace := by
  simp [afterFetch, creations_append, creations, afterLoad_creations]

/-- C6: a pass that reaches the apply loop (identifier not excluded, target
resource fetched and not terminating) attempts one creation for each of the `n`
desired items, in their order, whatever each creation returns: the pass adds `n`
creation attempts, and the names of the objects submitted are the names of the
items. -/
theorem Reconcile_attempts_every_item {σ : Type} (R : Regexp) (cfg : Config) (c : Client σ)
    (request : Request) (w : State σ)
    (hnb : excluded R cfg c request w = false)
    (hfetch : (targetFetch cfg c request w).1.2 = none)
    (hphase : (targetFetch cfg c request w).1.1.Status.Phase ≠ NamespaceTerminating) :
    (creations (Reconcile R cfg c request w).2.trace).length =
        (creations w.trace).length + w.desiredRolebindings.length ∧
      (creations (Reconcile R cfg c request w).2.trace).map (fun p => p.1.Name) =
        (creations w.trace).map (fun p => p.1.Name) ++
          w.desiredRolebindings.map (fun rb => rb.Name) := by
  rw [Reconcile_apply R cfg c request w hnb hfetch hphase]
  constructor
  · simp [applyLoop_creations_length, afterFetch_creations]
  · have h := congrArg (List.map (fun rb : RoleBinding => rb.Name))
      (applyLoop_submitted c request w.desiredRolebindings (afterFetch cfg c request w))
    simpa [afterFetch_creations, scopedTo, Function.comp_def] using h

/-- C9: a pass that reaches the apply loop for the identifier `request.Name`
submits for creation the desired items in their order, each being the template
with its `Namespace` set to the identifier and its other fields as they are. -/
theorem Reconcile_submits_scoped_templates {σ : Type} (R : Regexp) (cfg : Config)
    (c : Client σ) (request : Request) (w : State σ)
    (hnb : excluded R cfg c request w = false)
    (hfetch : (targetFetch cfg c request w).1.2 = none)
    (hphase : (targetFetch cfg c request w).1.1.Status.Phase ≠ NamespaceTerminating) :
    (creations (Reconcile R cfg c request w).2.trace).map Prod.fst =
      (creations w.trace).map Prod.fst ++
        w.desiredRolebindings.map (fun rb =>
          { Name := rb.Name, Namespace := request.Name, Subjects := rb.Subjects,
            RoleRef := rb.RoleRef }) := by
  rw [Reconcile_apply R cfg c request w hnb hfetch hphase, applyLoop_submitted,
    afterFetch_creations]
  rfl

/-! ## The exclusion policy -/

theorem regexp_MatchString_iff (R : Regexp) (pattern s : String) :
    (regexp.MatchString R pattern s).1 = true ↔
      ∃ re, R.Compile pattern = .ok re ∧ R.MatchString re s = true := by
  unfold regexp.MatchString
  split
  · rename_i err h
    simp [h]
  · rename_i re h
    simp [h]

theorem isBlackListedLoop_iff (R : Regexp) (nsName : String) (rules : List String) :
    isBlackListedLoop R nsName rules = true ↔
      ∃ rule ∈ rules, ∃ re, R.Compile rule = .ok re ∧ R.MatchString re nsName = true := by
  induction rules with
  | nil => simp [isBlackListedLoop]
  | cons rule rest ih =>
    have hm := regexp_MatchString_iff R rule nsName
    simp only [isBlackListedLoop, List.mem_cons, exists_eq_or_imp]
    by_cases h : (regexp.MatchString R rule nsName).1 = true
    · simp only [h, if_true, true_iff]
      exact Or.inl (hm.mp h)
    · rw [if_neg h, ih]
      constructor
      · intro hr
        exact Or.inr hr
      · intro hr
        rcases hr with hr | hr
        · exact absurd (hm.mpr hr) h
        · exact hr

/-- C2: `isBlackListedNamespace` returns true exactly when one of the pieces of
the policy field between its commas compiles as a regular expression and the
identifier contains a match of it.  A piece that does not compile counts as not
matching, and the pieces after it are still tried. -/
theorem isBlackListedNamespace_iff (R : Regexp) (nsName : String)
    (blacklistedNamespaces : String) :
    isBlackListedNamespace R nsName blacklistedNamespaces = true ↔
      ∃ rule ∈ strings.Split blacklistedNamespaces ',',
        ∃ re, R.Compile rule = .ok re ∧ R.MatchString re nsName = true :=
  isBlackListedLoop_iff R nsName _

/-! ## The apply loop over a cluster -/

theorem clusterClient_create_store (rb : RoleBinding) (s : Cluster) :
    (clusterClient.Create rb s).2 =
      if s.present rb then s else { s with roleBindings := s.roleBindings ++ [rb] } := by
  simp only [clusterClient]
  split <;> rfl

theorem clusterClient_create_error (rb : RoleBinding) (s : Cluster) :
    (clusterClient.Create rb s).1.2 = if s.present rb then some alreadyExistsError else none := by
  simp only [clusterClient]
  split <;> rfl

theorem clusterClient_create_present_self (rb : RoleBinding) (s : Cluster) :
    (clusterClient.Create rb s).2.present rb = true := by
  rw [clusterClient_create_store]
  by_cases h : s.present rb = true
  · rw [if_pos h]
    exact h
  · rw [if_neg h]
    simp [Cluster.present]

theorem clusterClient_create_present_mono (rb x : RoleBinding) (s : Cluster)
    (h : s.present x = true) : (clusterClient.Create rb s).2.present x = true := by
  rw [clusterClient_create_store]
  by_cases hp : s.present rb = true
  · rw [if_pos hp]
    exact h
  · rw [if_neg hp]
    simp only [Cluster.present, List.any_append, Bool.or_eq_true]
    exact Or.inl h

theorem applyLoop_cluster_present_mono (request : Request) (rbs : List RoleBinding)
    (x : RoleBinding) (w : State Cluster) (h : w.store.present x = true) :
    (applyLoop clusterClient request rbs w).store.present x = true := by
  induction rbs generalizing w with
  | nil => exact h
  | cons rb rest ih =>
    rw [applyLoop]
    apply ih
    rw [applyItem_store]
    exact clusterClient_create_present_mono _ _ _ h

theorem applyLoop_cluster_all_present (request : Request) (rbs : List RoleBinding)
    (w : State Cluster) :
    ∀ rb ∈ rbs,
      (applyLoop clusterClient request rbs w).store.present (scopedTo request.Name rb) = true := by
  induction rbs generalizing w with
  | nil => simp
  | cons rb rest ih =>
    intro x hx
    rw [applyLoop]
    rcases List.mem_cons.mp hx with hx | hx
    · subst hx
      apply applyLoop_cluster_present_mono
      rw [applyItem_store]
      exact clusterClient_create_present_self _ _
    · exact ih _ x hx

theorem applyLoop_cluster_noop (request : Request) (rbs : List RoleBinding)
    (w : State Cluster)
    (h : ∀ rb ∈ rbs, w.store.present (scopedTo request.Name rb) = true) :
    (applyLoop clusterClient request rbs w).store = w.store ∧
      creations (applyLoop clusterClient request rbs w).trace =
        creations w.trace ++
          rbs.map (fun rb => (scopedTo request.Name rb, some alreadyExistsError)) := by
  induction rbs generalizing w with
  | nil => simp [applyLoop]
  | cons rb rest ih =>
    have hrb : w.store.present (scopedTo request.Name rb) = true := h rb (List.mem_cons_self _ _)
    have hs : (applyItem clusterClient request rb w).store = w.store := by
      rw [applyItem_store, clusterClient_create_store, if_pos hrb]
    have hrest : ∀ x ∈ rest,
        (applyItem clusterClient request rb w).store.present (scopedTo request.Name x) = true := by
      intro x hx
      rw [hs]
      exact h x (List.mem_cons_of_mem _ hx)
    rw [applyLoop, (ih _ hrest).1, (ih _ hrest).2, hs, applyItem_creations,
      clusterClient_create_error, if_pos hrb]
    simp

theorem applyLoop_cluster_outcomes (request : Request) (rbs : List RoleBinding)
    (w : State Cluster) :
    ∀ p ∈ creations (applyLoop clusterClient request rbs w).trace,
      p ∈ creations w.trace ∨ p.2 = none ∨ p.2 = some alreadyExistsError := by
  induction rbs generalizing w with
  | nil =>
    intro p hp
    exact Or.inl hp
  | cons rb rest ih =>
    intro p hp
    rw [applyLoop] at hp
    rcases ih _ p hp with h | h
    · rw [applyItem_creations, clusterClient_create_error] at h
      rcases List.mem_append.mp h with h | h
      · exact Or.inl h
      · rw [List.mem_singleton] at h
        subst h
        by_cases hpr : w.store.present (scopedTo request.Name rb) = true
        · exact Or.inr (Or.inr (by simp [hpr]))
        · exact Or.inr (Or.inl (by simp [hpr]))
    · exact Or.inr h

/-- C8: over a cluster in which a creation succeeds and adds the child unless a
child of the same name and namespace is present, where it fails with
already-exists and changes nothing, every creation of a first run of the apply
loop succeeds or returns already-exists, and a second run for the same target and
desired set leaves the store as the first run left it and makes `n` creation
attempts, each of which returns already-exists. -/
theorem applyLoop_twice_idempotent (request : Request) (rbs : List RoleBinding)
    (w : State Cluster) :
    (applyLoop clusterClient request rbs
        { applyLoop clusterClient request rbs { w with trace := [] } with trace := [] }).store =
        (applyLoop clusterClient request rbs { w with trace := [] }).store ∧
      (creations (applyLoop clusterClient request rbs
        { applyLoop clusterClient request rbs { w with trace := [] } with trace := [] }).trace).length
        = rbs.length ∧
      (∀ p ∈ creations (applyLoop clusterClient request rbs
          { applyLoop clusterClient request rbs { w with trace := [] } with trace := [] }).trace,
        ∃ err, p.2 = some err ∧ errors.IsAlreadyExists err = true) ∧
      (∀ p ∈ creations (applyLoop clusterClient request rbs { w with trace := [] }).trace,
        p.2 = none ∨ ∃ err, p.2 = some err ∧ errors.IsAlreadyExists err = true) := by
  have h := applyLoop_cluster_noop request rbs
    { applyLoop clusterClient request rbs { w with trace := [] } with trace := [] }
    (applyLoop_cluster_all_present request rbs { w with trace := [] })
  refine ⟨h.1, ?_, ?_, ?_⟩
  · rw [h.2]
    simp [creations]
  · intro p hp
    rw [h.2] at hp
    simp only [creations, List.nil_append, List.mem_map] at hp
    obtain ⟨rb, _, hrb⟩ := hp
    exact ⟨alreadyExistsError, by rw [← hrb], rfl⟩
  · intro p hp
    rcases applyLoop_cluster_outcomes request rbs { w with trace := [] } p hp with h1 | h1 | h1
    · simp [creations] at h1
    · exact Or.inl h1
    · exact Or.inr ⟨alreadyExistsError, h1, rfl⟩

/-- On the fragment, `isBlackListedNamespace` returns true exactly when one of the
pieces of the policy field compiles and matches, as a whole, some substring of
the identifier. -/
theorem isBlackListedNamespace_goRegexp_iff (nsName : String) (blacklistedNamespaces : String) :
    isBlackListedNamespace goRegexp nsName blacklistedNamespaces = true ↔
      ∃ rule ∈ strings.Split blacklistedNamespaces ',',
        ∃ re, compileFragment rule = .ok re ∧
          ∃ pre mid post, nsName.data = pre ++ mid ++ post ∧ re.Matches mid := by
  rw [isBlackListedNamespace, isBlackListedLoop_iff]
  constructor
  · rintro ⟨rule, hr, re, hc, hm⟩
    exact ⟨rule, hr, re, hc, (goRegexp_MatchString_iff re nsName).mp hm⟩
  · rintro ⟨rule, hr, re, hc, hm⟩
    exact ⟨rule, hr, re, hc, (goRegexp_MatchString_iff re nsName).mpr hm⟩

/-! ## Closed statements -/

/-- C1: on the empty policy field `isBlackListedNamespace` returns true for every
identifier, not false: the split of the empty string has one piece, the empty
pattern, and the empty pattern matches every string. -/
theorem isBlackListedNamespace_empty_policy (nsName : String) :
    isBlackListedNamespace goRegexp nsName "" = true := by
  have hs : strings.Split "" ',' = [""] := by decide
  have hc : compileFragment "" = .ok Regex.emptyMatch := rfl
  rw [isBlackListedNamespace, hs]
  simp only [isBlackListedLoop, regexp.MatchString, goRegexp, hc]
  cases h : nsName.data <;> simp [Regex.matchAnywhere, Regex.matchPrefix, Regex.nullable]

/-- C3: a pass for `team-a` over a cluster that holds the active namespace
`team-a` and no policy document.  The policy load fails with not-found, and the
pass ends as excluded: it logs the skip, raises the counter of excluded passes,
fetches no target resource and attempts no creation. -/
theorem Reconcile_policy_load_failure_excludes :
    (policyLoad sampleConfig clusterClient
        (initialState { namespaces := [{ Name := "team-a", Status := { Phase := NamespaceActive } }] })).1.2
        = some notFoundError ∧
      (Reconcile goRegexp sampleConfig clusterClient (requestFor "team-a")
        (initialState { namespaces := [{ Name := "team-a", Status := { Phase := NamespaceActive } }] })).2.trace
        = [Event.getConfigMap
            { Namespace := "openshift-dedicated-admin", Name := "dedicated-admin-operator-config" }
            (some notFoundError),
           Event.info "Error Loading Operator Config" [("Request.Namespace", "team-a")],
           Event.info "Blacklisted Namespace - Skipping" [("Request.Namespace", "team-a")],
           Event.incBlacklistedCount] ∧
      (Reconcile goRegexp sampleConfig clusterClient (requestFor "team-a")
        (initialState { namespaces := [{ Name := "team-a", Status := { Phase := NamespaceActive } }] })).2.store.roleBindings
        = [] := by
  decide

/-- The example of the spec: for `team-a` and a desired set of two bindings over a
cluster that holds neither, the first run of the apply loop creates both and the
second finds both present. -/
theorem applyLoop_sample_runs :
    (creations (applyLoop clusterClient (requestFor "team-a") sampleRolebindings
        (initialState (clusterWith "team-a" NamespaceActive))).trace).map Prod.snd =
        [none, none] ∧
      (creations (applyLoop clusterClient (requestFor "team-a") sampleRolebindings
        (initialState (applyLoop clusterClient (requestFor "team-a") sampleRolebindings
          (initialState (clusterWith "team-a" NamespaceActive))).store)).trace).map Prod.snd =
        [some alreadyExistsError, some alreadyExistsError] := by
  decide

/-- Witness of C4: `team-a` is terminating in a cluster whose policy does not
exclude it. -/
theorem Reconcile_not_ready_no_creation_witness :
    excluded goRegexp sampleConfig clusterClient (requestFor "team-a")
        (initialState (clusterWith "team-a" NamespaceTerminating)) = false ∧
      (creations (Reconcile goRegexp sampleConfig clusterClient (requestFor "team-a")
        (initialState (clusterWith "team-a" NamespaceTerminating))).2.trace).length = 0 :=
  ⟨by decide,
    (Reconcile_not_ready_no_creation goRegexp sampleConfig clusterClient (requestFor "team-a")
      (initialState (clusterWith "team-a" NamespaceTerminating)) (by decide)
      (Or.inr ⟨by decide, by decide⟩)).2⟩

/-- Witness of C6: the first of two creations is refused by the store, the second
is still attempted. -/
theorem Reconcile_attempts_every_item_witness :
    creations (Reconcile goRegexp sampleConfig
        (scriptedClient "kube-.*" NamespaceActive [some forbiddenError, none])
        (requestFor "team-a") (initialState 0)).2.trace =
        [({ Name := "dedicated-admins-project-0",
            Namespace := "team-a",
            Subjects := [{ Kind := "Group", Name := "dedicated-admins" }],
            RoleRef := { Kind := "ClusterRole", Name := "admin" } }, some forbiddenError),
         ({ Name := "dedicated-admins-project-1",
            Namespace := "team-a",
            Subjects := [{ Kind := "Group", Name := "dedicated-admins" }],
            RoleRef := { Kind := "ClusterRole", Name := "dedicated-admins-project" } }, none)] ∧
      (creations (Reconcile goRegexp sampleConfig
        (scriptedClient "kube-.*" NamespaceActive [some forbiddenError, none])
        (requestFor "team-a") (initialState 0)).2.trace).length = 0 + 2 :=
  ⟨by decide,
    (Reconcile_attempts_every_item goRegexp sampleConfig
      (scriptedClient "kube-.*" NamespaceActive [some forbiddenError, none])
      (requestFor "team-a") (initialState 0) (by decide) (by decide) (by decide)).1⟩

/-- Witness of C7: `kube-system` under the policy `kube-.*,openshift-.*`. -/
theorem Reconcile_excluded_skips_witness :
    isBlackListedNamespace goRegexp "kube-system" "kube-.*,openshift-.*" = true ∧
      fetches (Reconcile goRegexp sampleConfig clusterClient (requestFor "kube-system")
        (initialState (clusterWith "kube-system" NamespaceActive))).2.trace = [] ∧
      (Reconcile goRegexp sampleConfig clusterClient (requestFor "kube-system")
        (initialState (clusterWith "kube-system" NamespaceActive))).2.blacklistedCount = 0 + 1 :=
  ⟨by decide,
    (Reconcile_excluded_skips goRegexp sampleConfig clusterClient (requestFor "kube-system")
      (initialState (clusterWith "kube-system" NamespaceActive)) (by decide)).2.1,
    (Reconcile_excluded_skips goRegexp sampleConfig clusterClient (requestFor "kube-system")
      (initialState (clusterWith "kube-system" NamespaceActive)) (by decide)).2.2.2.2.1⟩

/-- Witness of C9: `team-a` is active in a cluster whose policy does not exclude
it; the two templates are submitted with the namespace `team-a`. -/
theorem Reconcile_submits_scoped_templates_witness :
    (clusterClient.GetNamespace { Name := "team-a" } {} (clusterWith "team-a" NamespaceActive)).1
        = ({ Name := "team-a", Status := { Phase := "Active" } }, none) ∧
      (creations (Reconcile goRegexp sampleConfig clusterClient (requestFor "team-a")
        (initialState (clusterWith "team-a" NamespaceActive))).2.trace).map Prod.fst =
        [] ++ (initialState (clusterWith "team-a" NamespaceActive)).desiredRolebindings.map
          (fun rb =>
            { Name := rb.Name, Namespace := "team-a", Subjects := rb.Subjects,
              RoleRef := rb.RoleRef }) :=
  ⟨by decide,
    Reconcile_submits_scoped_templates goRegexp sampleConfig clusterClient (requestFor "team-a")
      (initialState (clusterWith "team-a" NamespaceActive)) (by decide) (by decide) (by decide)⟩

end DedicatedAdmin
